import Mathlib

/-!
Shallow embedding of the repository dKosarevsky/video_downloader
(files src/helpers/yt.py and src/helpers/utils.py) together with theorems
checking the claims of its natural-language specification.

Conventions of the embedding:
* Python strings are Lean `String`; slicing and parsing are modelled on
  `String.toList` so that everything reduces in the kernel.
* A Python value that may be `None` is an `Option`; Python truthiness of an
  optional string (`None` and the empty string are falsy) is `truthyOS`.
* Side effects (Streamlit UI calls, stream downloads, muxing) are recorded in
  an explicit list of `Event`s; the local file system is a `List String` of
  the names of the files that currently exist; a Python exception that the
  function under scrutiny does not catch is `Except.error`.
-/

/-- Python truthiness of an optional string: None and the empty string are falsy. -/
def truthyOS : Option String → Bool
  | none => false
  | some s => !(s == "")

/-- Numeric value of a list of decimal digit characters. -/
def digitsVal (cs : List Char) : Nat :=
  cs.foldl (fun a c => a * 10 + (c.toNat - 48)) 0

/-- Decimal parse of a digit sequence; fails on the empty sequence or on a
non-digit character, as Python int() does. -/
def natOfDigits (cs : List Char) : Option Nat :=
  if cs.isEmpty || !cs.all Char.isDigit then none else some (digitsVal cs)

/-- Python int(s) on a string: an optional sign followed by decimal digits.
(The grouping underscores and surrounding whitespace that Python also accepts
never occur in stream labels and are not modelled.) -/
def pyInt (s : String) : Option Int :=
  match s.toList with
  | '+' :: cs => (natOfDigits cs).map (fun n => (n : Int))
  | '-' :: cs => (natOfDigits cs).map (fun n => -(n : Int))
  | cs => (natOfDigits cs).map (fun n => (n : Int))

/-- Python x[:-n]. For n = 0 this is x[:0] = the empty string; otherwise the
last n characters are dropped (all of them when n exceeds the length). -/
def pySliceToNeg (x : String) (n : Nat) : String :=
  if n = 0 then "" else String.mk (x.toList.take (x.toList.length - n))

/-- The sort key used by sort_results: int(x[:-slice_range]), as an option. -/
def labelKey (n : Nat) (x : String) : Option Int :=
  pyInt (pySliceToNeg x n)

/-- The sort key with a default, used only to state sortedness. -/
def keyVal (n : Nat) (x : String) : Int := (labelKey n x).getD 0

/-- Pair every label with its parsed key; fails (Python ValueError/TypeError
during sorted) as soon as one label does not parse. -/
def keyedOf (n : Nat) : List String → Option (List (String × Int))
  | [] => some []
  | x :: xs =>
    match labelKey n x, keyedOf n xs with
    | some k, some ps => some ((x, k) :: ps)
    | _, _ => none

/-- Comparison used by sorted(..., key=..., reverse=reverse) on the keyed
pairs: descending keys when reverse is true, ascending otherwise. -/
def keyRel : Bool → (String × Int) → (String × Int) → Prop
  | true, p, q => q.2 ≤ p.2
  | false, p, q => p.2 ≤ q.2

instance keyRelDecidable : (r : Bool) → DecidableRel (keyRel r)
  | true => fun p q => inferInstanceAs (Decidable (q.2 ≤ p.2))
  | false => fun p q => inferInstanceAs (Decidable (p.2 ≤ q.2))

instance keyRelTotalTrue : IsTotal (String × Int) (keyRel true) :=
  ⟨fun p q => le_total q.2 p.2⟩

instance keyRelTransTrue : IsTrans (String × Int) (keyRel true) :=
  ⟨fun _ _ _ h1 h2 => le_trans h2 h1⟩

/-- Embedding of sort_results (yt.py line 120):
sorted(set(results), key=lambda x: int(x[:-slice_range]), reverse=reverse).
Python set() removes duplicates (its iteration order is unspecified, modelled
by List.dedup); every key is computed before sorting, so one unparsable label
makes the whole call raise, modelled by none. -/
def sort_results (results : List String) (reverse : Bool) (slice_range : Nat) :
    Option (List String) :=
  match keyedOf slice_range results.dedup with
  | none => none
  | some keyed => some ((List.insertionSort (keyRel reverse) keyed).map Prod.fst)

/-- Modelled from the spec: src/helpers/const.py is not among the sources;
section 6 of the spec fixes the video MIME type. -/
def MIME : String := "video/mp4"

/-- Modelled from the spec: the audio MIME type of section 6. -/
def AUDIO_MIME : String := "audio/mp4"

/-- Modelled from the spec: the fixed local intermediate filename for the
downloaded video (section 6: "fixed intermediate filenames"). -/
def DEFAULT_NAME : String := "video.mp4"

/-- Modelled from the spec: the fixed local intermediate filename for the
downloaded or extracted audio. -/
def DEFAULT_AUDIO_NAME : String := "audio.mp4"

/-- Modelled from the spec: the fixed local filename for the progressive
stream downloaded only to have its audio track extracted. -/
def AUDIO_SOURCE_NAME : String := "audio_source.mp4"

/-- Modelled from the spec: the default extension used when a file name has
none. -/
def DEFAULT_EXT : String := "mp4"

/-- One pytubefix stream, with the attributes the helpers read. The two
fields sabrRejects (the remote service rejects a download of this stream,
pytubefix SABRError) and hasAudioTrack (the saved file contains an audio
track) model the behaviour of the external world for this stream. -/
structure YStream where
  sid : Nat
  type_ : String
  mime_type : String
  resolution : Option String
  abr : Option String
  progressive : Bool
  is_sabr : Bool
  file_extension : String
  sabrRejects : Bool
  hasAudioTrack : Bool
  deriving DecidableEq, Repr

/-- The pytubefix YouTube handle, reduced to the attributes the helpers read. -/
structure YouTube where
  title : String
  publish_date : String
  length : Nat
  views : Nat
  streams : List YStream
  po_token : Option String
  visitor_data : Option String
  deriving DecidableEq, Repr

/-- Observable side effects of the helpers: Streamlit UI calls, stream
downloads, the muxing call, and markers for control flow the claims mention. -/
inductive Event where
  | warn (msg : String)
  | errorMsg (msg : String)
  | info (msg : String)
  | caption (msg : String)
  | success (msg : String)
  | write (msg : String)
  | download (sid : Nat) (filename : String)
  | mux
  | fallback
  | resolveAttempt (client : String)
  | stStop
  | openFile (filename : String)
  | downloadButton (filename : String) (mime : String)
  deriving DecidableEq, Repr

def isDownload : Event → Bool
  | .download _ _ => true
  | _ => false

/-- Embedding of search_yt_resolution (yt.py lines 148-150). The pytubefix
StreamQuery.filter registers a criterion only when the keyword argument is
truthy, so progressive=False adds no constraint. The Python list holds
i.resolution values that may be None; sorting such a list raises, collapsed
here into the same none as an unparsable label. -/
def search_yt_resolution (yt : YouTube) (progressive : Bool) : Option (List String) :=
  ((yt.streams.filter (fun (s : YStream) =>
        s.mime_type == MIME && (!progressive || s.progressive))).mapM
      (fun (s : YStream) => s.resolution)).bind
    (fun resolutions => sort_results resolutions true 1)

/-- Embedding of search_bit_rates (yt.py lines 153-163): audio streams, with
SABR streams excluded when no po_token is set, sorted on abr with a suffix of
four characters. -/
def search_bit_rates (yt : YouTube) : Option (List String) :=
  ((yt.streams.filter (fun (s : YStream) =>
        s.type_ == "audio" && (truthyOS yt.po_token || !s.is_sabr))).mapM
      (fun (s : YStream) => s.abr)).bind
    (fun bit_rates => sort_results bit_rates true 4)

/-- Last dot-separated segment of a list of characters,
Python s.split(".")[-1]. -/
def splitDotsLast : List Char → List Char
  | [] => []
  | c :: cs =>
    if c = '.' then splitDotsLast cs
    else match splitDotsLast cs with
      | acc => if cs.contains '.' then acc else c :: acc

/-- The container extension preferred by _select_progressive_stream,
DEFAULT_NAME.split(".")[-1] (yt.py line 188). -/
def DEFAULT_NAME_container : String := String.mk (splitDotsLast DEFAULT_NAME.toList)

/-- Embedding of _resolution_score (yt.py lines 197-202): digits of the
resolution label when it is truthy and ends in p, else 0. -/
def _resolution_score (s : YStream) : Nat :=
  match s.resolution with
  | none => 0
  | some r =>
    let cs := r.toList
    if cs ≠ [] ∧ cs.getLast? = some 'p' then
      let ds := cs.filter Char.isDigit
      if ds ≠ [] then digitsVal ds else 0
    else 0

/-- Python max(key=f) over a nonempty list: the first element with maximal
score, best being the maximum so far. -/
def pyMaxBy (f : YStream → Nat) (best : YStream) : List YStream → YStream
  | [] => best
  | x :: xs => pyMaxBy f (if f best < f x then x else best) xs

/-- The candidate list of _select_progressive_stream (yt.py lines 186-192):
progressive streams with the default container extension, or all progressive
streams when there are none of these. -/
def progressiveCandidates (streams : List YStream) : List YStream :=
  if (streams.filter (fun s =>
      s.progressive && s.file_extension == DEFAULT_NAME_container)).isEmpty
  then streams.filter (fun s => s.progressive)
  else streams.filter (fun s =>
    s.progressive && s.file_extension == DEFAULT_NAME_container)

/-- Embedding of _select_progressive_stream (yt.py lines 184-204). -/
def _select_progressive_stream (streams : List YStream) : Option YStream :=
  match progressiveCandidates streams with
  | [] => none
  | c :: cs => some (pyMaxBy _resolution_score c cs)

/-- Embedding of _extract_audio_from_video (yt.py lines 207-227), returning
the emitted events, the updated file system and the boolean result. Whether
the saved file has an audio track is looked up in hasAudio. -/
def _extract_audio_from_video (fs : List String) (hasAudio : String → Bool)
    (video_path : String) (audio_path : String) :
    List Event × List String × Bool :=
  if video_path ∉ fs then
    ([.errorMsg "Temporary video file missing; unable to extract audio."], fs, false)
  else if !hasAudio video_path then
    ([.errorMsg "Unable to extract audio track from the video stream."], fs, false)
  else
    ([], audio_path :: fs, true)

/-- Embedding of _download_audio_via_progressive (yt.py lines 230-247). The
leading Event.fallback marks one invocation of this fallback path. The
progressive download itself is not wrapped in try/except in the source, so a
remote rejection propagates as Except.error. -/
def _download_audio_via_progressive (yt : YouTube) (fs : List String)
    (hasAudio : String → Bool) :
    List Event × List String × Except String Bool :=
  match _select_progressive_stream yt.streams with
  | none =>
    ([.fallback, .errorMsg "No progressive stream available for audio extraction."],
     fs, .ok false)
  | some stream =>
    if stream.sabrRejects then
      ([.fallback,
        .info "Extracting audio from a progressive stream. Provide PoToken for direct audio downloads."],
       fs, .error "SABRError")
    else
      match _extract_audio_from_video (AUDIO_SOURCE_NAME :: fs) hasAudio
          AUDIO_SOURCE_NAME DEFAULT_AUDIO_NAME with
      | (ev, fs2, ok) =>
        ([.fallback,
          .info "Extracting audio from a progressive stream. Provide PoToken for direct audio downloads.",
          .download stream.sid AUDIO_SOURCE_NAME] ++ ev,
         fs2.erase AUDIO_SOURCE_NAME, .ok ok)

/-- The audio stream query of _download_audio_stream (yt.py lines 255-265):
audio streams with the requested abr, restricted to non-SABR streams when no
po_token is set (pytubefix applies every custom filter function; with a
po_token the custom filter list is None and adds no constraint). -/
def audioMatches (yt : YouTube) (bit_rate : Option String) : List YStream :=
  yt.streams.filter (fun s =>
    s.type_ == "audio" && s.abr == bit_rate && (truthyOS yt.po_token || !s.is_sabr))

/-- Embedding of _download_audio_stream (yt.py lines 250-286). -/
def _download_audio_stream (yt : YouTube) (bit_rate : Option String)
    (fs : List String) (hasAudio : String → Bool) :
    List Event × List String × Except String Bool :=
  if !truthyOS bit_rate then _download_audio_via_progressive yt fs hasAudio
  else
    match (audioMatches yt bit_rate).head? with
    | none =>
      if !truthyOS yt.po_token then _download_audio_via_progressive yt fs hasAudio
      else
        ([.errorMsg "Could not find an audio stream for the selected bit rate."],
         fs, .ok false)
    | some stream =>
      if stream.sabrRejects then
        if !truthyOS yt.po_token then _download_audio_via_progressive yt fs hasAudio
        else
          ([.errorMsg "YouTube blocked this audio stream. Please provide a valid PoToken.",
            .caption "Details: SABRError"],
           fs, .ok false)
      else
        ([.download stream.sid DEFAULT_AUDIO_NAME], DEFAULT_AUDIO_NAME :: fs, .ok true)

/-- Embedding of combine (yt.py lines 289-303). The source opens both
intermediate clips and re-encodes without any existence check or try/except,
so a missing input makes the call raise (moviepy OSError), modelled as
Except.error with no user-facing event. -/
def combine (fs : List String) : List Event × Except String Unit :=
  if DEFAULT_NAME ∉ fs then
    ([], .error "OSError: the intermediate video file does not exist")
  else if DEFAULT_AUDIO_NAME ∉ fs then
    ([], .error "OSError: the intermediate audio file does not exist")
  else
    ([.mux], .ok ())

/-- The metadata written at the start of a preparation
(yt.py lines 325-329). -/
def metaWrites (yt : YouTube) : List Event :=
  [.write ("Title: " ++ yt.title),
   .write ("Publish Date: " ++ yt.publish_date),
   .write ("Duration: " ++ toString yt.length),
   .write ("Views: " ++ toString yt.views)]

/-- The video stream query of prepare_yt_media (yt.py lines 337-341).
pytubefix StreamQuery.filter registers a criterion only when the keyword is
truthy: res=None or res= adds no constraint and progressive=False adds no
constraint. -/
def videoMatches (yt : YouTube) (resolution : Option String) (progressive : Bool) :
    List YStream :=
  yt.streams.filter (fun s =>
    s.type_ == "video" && (!truthyOS resolution || s.resolution == resolution) &&
      (!progressive || s.progressive))

/-- Embedding of prepare_yt_media (yt.py lines 306-358). The submitted flag
stands for the form submit button; when it is false the function returns None
without doing anything. The source also returns None for a falsy yt_obj, but
a pytubefix YouTube instance is always truthy, so that branch is dead and not
modelled. The video download is not wrapped in try/except, so a remote
rejection propagates as Except.error. -/
def prepare_yt_media (yt : YouTube) (resolution : Option String)
    (progressive : Bool) (bit_rate : Option String) (audio_only : Bool)
    (submitted : Bool) (fs : List String) (hasAudio : String → Bool) :
    List Event × List String × Except String (Option (String × String × String)) :=
  if !submitted then ([], fs, .ok none)
  else if audio_only then
    match _download_audio_stream yt bit_rate fs hasAudio with
    | (ev, fs1, .error e) => (metaWrites yt ++ ev, fs1, .error e)
    | (ev, fs1, .ok false) => (metaWrites yt ++ ev, fs1, .ok none)
    | (ev, fs1, .ok true) =>
      (metaWrites yt ++ ev ++ [.success "Audio Prepared Successfully."], fs1,
       .ok (some (yt.title, DEFAULT_AUDIO_NAME, AUDIO_MIME)))
  else
    match (videoMatches yt resolution progressive).head? with
    | none =>
      (metaWrites yt ++
        [.errorMsg "Could not find a video stream for the selected resolution."],
       fs, .ok none)
    | some vs =>
      if vs.sabrRejects then (metaWrites yt, fs, .error "SABRError")
      else if progressive then
        (metaWrites yt ++ [.download vs.sid DEFAULT_NAME,
          .success "Video Prepared Successfully."], DEFAULT_NAME :: fs,
         .ok (some (yt.title, DEFAULT_NAME, MIME)))
      else
        match _download_audio_stream yt bit_rate (DEFAULT_NAME :: fs) hasAudio with
        | (ev2, fs2, .error e) =>
          (metaWrites yt ++ [.download vs.sid DEFAULT_NAME] ++ ev2, fs2, .error e)
        | (ev2, fs2, .ok false) =>
          (metaWrites yt ++ [.download vs.sid DEFAULT_NAME] ++ ev2, fs2, .ok none)
        | (ev2, fs2, .ok true) =>
          match combine fs2 with
          | (ev3, .error e) =>
            (metaWrites yt ++ [.download vs.sid DEFAULT_NAME] ++ ev2 ++ ev3, fs2,
             .error e)
          | (ev3, .ok _) =>
            (metaWrites yt ++ [.download vs.sid DEFAULT_NAME] ++ ev2 ++ ev3 ++
              [.success "Video Prepared Successfully."], fs2,
             .ok (some (yt.title, DEFAULT_NAME, MIME)))

/-- Outcome of get_yt_obj: a handle, or the script stopped by st.stop after
st.error. -/
inductive GetYtOutcome where
  | obtained (yt : YouTube)
  | stopped
  deriving DecidableEq, Repr

/-- Environment of get_yt_obj: the outcome of _prepare_po_token (network and
secrets, yt.py lines 98-107) and, per stream client, the outcome of the
YouTube constructor; an error stands for one of the caught exception kinds
(URLError, RegexMatchError, VideoUnavailable, BotDetection). -/
structure YtEnv where
  tokenPrep : Except String (String × String)
  construct : String → Except String YouTube

/-- Embedding of _apply_manual_po_token (yt.py lines 110-117). -/
def _apply_manual_po_token (yt : YouTube) (p : String × String) : YouTube :=
  { yt with visitor_data := some p.1, po_token := some p.2 }

/-- Embedding of get_yt_obj (yt.py lines 124-145). Event.resolveAttempt
records the stream client passed to the YouTube constructor. -/
def get_yt_obj (env : YtEnv) : List Event × GetYtOutcome :=
  match env.tokenPrep with
  | .ok tok =>
    match env.construct "WEB" with
    | .ok yt => ([.resolveAttempt "WEB"], .obtained (_apply_manual_po_token yt tok))
    | .error e => ([.resolveAttempt "WEB", .errorMsg e, .stStop], .stopped)
  | .error e =>
    match env.construct "ANDROID_VR" with
    | .ok yt =>
      ([.warn ("Failed to auto-generate PoToken, continuing without it. Details: " ++ e),
        .resolveAttempt "ANDROID_VR"], .obtained yt)
    | .error e2 =>
      ([.warn ("Failed to auto-generate PoToken, continuing without it. Details: " ++ e),
        .resolveAttempt "ANDROID_VR", .errorMsg e2, .stStop], .stopped)

/-- Python pathlib Path(name).suffix for a plain file name (no directory
components occur here): the part from the last dot, empty when the last dot
is absent, leading or trailing. -/
def pathSuffix (name : String) : String :=
  let cs := name.toList
  match ((List.range cs.length).filter (fun i => cs.getD i ' ' = '.')).getLast? with
  | none => ""
  | some i => if 0 < i ∧ i + 1 < cs.length then String.mk (cs.drop i) else ""

/-- The extension derivation of download_video_locally (utils.py line 22):
file_path.suffix.removeprefix(".") or DEFAULT_EXT. -/
def deriveExt (file_name : String) : String :=
  let sfx := pathSuffix file_name
  let e := if sfx.toList.head? = some '.' then String.mk (sfx.toList.drop 1) else sfx
  if e = "" then DEFAULT_EXT else e

/-- Embedding of download_video_locally (utils.py lines 17-28). A falsy title
returns at once; otherwise the intermediate file is opened (raising when it
does not exist) and a download button named Title.extension is rendered. The
post-click spinner branch is interaction beyond one render and not modelled. -/
def download_video_locally (fs : List String) (title : Option String)
    (file_name : String) (mime : String) :
    List Event × List String × Except String Unit :=
  if !truthyOS title then ([], fs, .ok ())
  else if file_name ∉ fs then ([], fs, .error "FileNotFoundError")
  else
    ([.openFile file_name,
      .downloadButton ((title.getD "") ++ "." ++ deriveExt file_name) mime],
     fs, .ok ())

/-- Embedding of the tail of download_yt_video (yt.py lines 402-413): given
the result of prepare_yt_media and the selections, build the suffixed title
and offer the file for download. -/
def finalize_download (fs : List String) (audio_only : Bool)
    (resolution bit_rate : Option String)
    (result : Option (String × String × String)) :
    List Event × List String × Except String Unit :=
  match result with
  | none => ([], fs, .ok ())
  | some (title, file_name, mime) =>
    let suffix :=
      if !audio_only && truthyOS resolution then " " ++ resolution.getD ""
      else if audio_only && truthyOS bit_rate then " " ++ bit_rate.getD ""
      else ""
    download_video_locally fs (some (title ++ suffix)) file_name mime

def c9sA : YStream :=
  ⟨1, "video", "video/mp4", some "360p", none, true, false, "mp4", false, true⟩

def c9sB : YStream :=
  ⟨2, "video", "video/mp4", some "720p", none, true, false, "mp4", false, true⟩

def c3yt : YouTube := ⟨"T", "2024-01-01", 1, 1, [], none, none⟩

def c4yt : YouTube := ⟨"T", "2024-01-01", 1, 1, [], none, none⟩

def c5vs : YStream :=
  ⟨1, "video", "video/mp4", some "1080p", none, true, false, "mp4", false, true⟩

def c5yt1 : YouTube := ⟨"T", "2024-01-01", 1, 1, [c5vs], none, none⟩

def c5vsB : YStream :=
  ⟨3, "video", "video/mp4", some "720p", none, false, false, "mp4", false, true⟩

def c5aud : YStream :=
  ⟨4, "audio", "audio/mp4", none, some "128kbps", false, false, "mp4", false, true⟩

def c5yt2 : YouTube := ⟨"T", "2024-01-01", 1, 1, [c5vsB, c5aud], none, none⟩

theorem keyedOf_isSome_iff (n : Nat) (xs : List String) :
    (keyedOf n xs).isSome ↔ ∀ x ∈ xs, (labelKey n x).isSome := by
  induction xs with
  | nil => simp [keyedOf]
  | cons x xs ih =>
    simp only [keyedOf]
    cases hp : labelKey n x <;> cases hk : keyedOf n xs <;>
      simp_all [Option.isSome]

theorem keyedOf_map_fst (n : Nat) :
    ∀ (xs : List String) (ps : List (String × Int)),
      keyedOf n xs = some ps → ps.map Prod.fst = xs
  | [], ps, h => by
    simp [keyedOf] at h
    simp [← h]
  | x :: xs, ps, h => by
    simp only [keyedOf] at h
    cases hp : labelKey n x <;> rw [hp] at h
    · exact absurd h (by simp)
    · cases hk : keyedOf n xs <;> rw [hk] at h
      · exact absurd h (by simp)
      · cases h
        simp [keyedOf_map_fst n xs _ hk]

theorem keyedOf_key (n : Nat) :
    ∀ (xs : List String) (ps : List (String × Int)),
      keyedOf n xs = some ps → ∀ p ∈ ps, labelKey n p.1 = some p.2
  | [], ps, h => by
    simp [keyedOf] at h
    subst h
    intro p hp
    cases hp
  | x :: xs, ps, h => by
    simp only [keyedOf] at h
    cases hp : labelKey n x <;> rw [hp] at h
    · exact absurd h (by simp)
    · cases hk : keyedOf n xs <;> rw [hk] at h
      · exact absurd h (by simp)
      · cases h
        intro p hp2
        rcases List.mem_cons.mp hp2 with h1 | h1
        · subst h1; exact hp
        · exact keyedOf_key n xs _ hk p h1

theorem sort_results_isSome_eq (results : List String) (reverse : Bool) (n : Nat) :
    (sort_results results reverse n).isSome = (keyedOf n results.dedup).isSome := by
  unfold sort_results
  cases keyedOf n results.dedup <;> rfl

theorem sort_results_isSome_iff (results : List String) (reverse : Bool) (n : Nat) :
    (sort_results results reverse n).isSome ↔
      ∀ x ∈ results, (labelKey n x).isSome := by
  rw [sort_results_isSome_eq, keyedOf_isSome_iff]
  constructor
  · exact fun h x hx => h x (List.mem_dedup.mpr hx)
  · exact fun h x hx => h x (List.mem_dedup.mp hx)

theorem pairwise_imp_of_mem {α : Type} {R S : α → α → Prop} :
    ∀ {l : List α}, (∀ a b, a ∈ l → b ∈ l → R a b → S a b) → l.Pairwise R → l.Pairwise S := by
  intro l
  induction l with
  | nil => exact fun _ _ => List.Pairwise.nil
  | cons x xs ih =>
    intro h hp
    cases hp with
    | cons hx hxs =>
      exact List.Pairwise.cons
        (fun b hb => h x b (.head _) (.tail _ hb) (hx b hb))
        (ih (fun a b ha hb => h a b (.tail _ ha) (.tail _ hb)) hxs)

/-- C1: for every input list of label strings and every fixed suffix length,
sort_results returns the input labels with duplicates removed, ordered in
descending order of the integer parsed from each label with its last
slice_range characters dropped (whenever each such parse succeeds, which the
claim presupposes by speaking of "the integer parsed from each label"). -/
theorem claim_C1_sort_results (results : List String) (n : Nat)
    (h : ∀ x ∈ results, (labelKey n x).isSome) :
    ∃ out, sort_results results true n = some out ∧
      (∀ x, x ∈ out ↔ x ∈ results) ∧ out.Nodup ∧
      out.Pairwise (fun a b => keyVal n b ≤ keyVal n a) := by
  have hs : (keyedOf n results.dedup).isSome :=
    (keyedOf_isSome_iff n results.dedup).mpr
      (fun x hx => h x (List.mem_dedup.mp hx))
  obtain ⟨ps, hps⟩ := Option.isSome_iff_exists.mp hs
  have hperm := List.perm_insertionSort (keyRel true) ps
  have hfst := keyedOf_map_fst n _ _ hps
  refine ⟨(List.insertionSort (keyRel true) ps).map Prod.fst, ?_, ?_, ?_, ?_⟩
  · unfold sort_results
    rw [hps]
  · intro x
    rw [(hperm.map Prod.fst).mem_iff, hfst, List.mem_dedup]
  · exact (hperm.map Prod.fst).nodup_iff.mpr (hfst ▸ results.nodup_dedup)
  · rw [List.pairwise_map]
    have hsorted : (List.insertionSort (keyRel true) ps).Pairwise (keyRel true) :=
      List.sorted_insertionSort (keyRel true) ps
    refine pairwise_imp_of_mem (fun p q hp hq hr => ?_) hsorted
    have hkp : labelKey n p.1 = some p.2 :=
      keyedOf_key n _ _ hps p (hperm.mem_iff.mp hp)
    have hkq : labelKey n q.1 = some q.2 :=
      keyedOf_key n _ _ hps q (hperm.mem_iff.mp hq)
    show keyVal n q.1 ≤ keyVal n p.1
    rw [keyVal, keyVal, hkp, hkq]
    exact hr

theorem claim_C1_sort_results_witness :
    ∃ out, sort_results ["360p", "720p", "360p", "1080p"] true 1 = some out ∧
      (∀ x, x ∈ out ↔ x ∈ ["360p", "720p", "360p", "1080p"]) ∧ out.Nodup ∧
      out.Pairwise (fun a b => keyVal 1 b ≤ keyVal 1 a) :=
  claim_C1_sort_results ["360p", "720p", "360p", "1080p"] 1 (by decide)

/-- C8: sort_results is total exactly under the precondition that every input
label with its last slice_range characters removed parses as a decimal
integer; the resolution label "1080p60" with slice_range 1 falls outside the
precondition and makes the call raise (modelled as none) instead of
returning a list. -/
theorem claim_C8_sort_results_precondition :
    (∀ (results : List String) (reverse : Bool) (n : Nat),
      (sort_results results reverse n).isSome ↔
        ∀ x ∈ results, (labelKey n x).isSome) ∧
    sort_results ["1080p60"] true 1 = none := by
  constructor
  · exact sort_results_isSome_iff
  · rfl

theorem claim_C8_sort_results_precondition_witness :
    ((sort_results ["720p"] true 1).isSome ↔
      ∀ x ∈ ["720p"], (labelKey 1 x).isSome) ∧
    sort_results ["1080p60"] true 1 = none :=
  ⟨claim_C8_sort_results_precondition.1 ["720p"] true 1,
   claim_C8_sort_results_precondition.2⟩


/-- C2 counterexample: with the intermediate video file absent (and likewise
with the intermediate audio file absent), combine raises an unhandled
exception and reports no user-facing error, refuting the claim that the
muxing step fails gracefully. -/
theorem claim_C2_counterexample :
    combine [DEFAULT_AUDIO_NAME] =
      ([], .error "OSError: the intermediate video file does not exist") ∧
    combine [DEFAULT_NAME] =
      ([], .error "OSError: the intermediate audio file does not exist") := by
  constructor <;> rfl

/-- C2 amended: for every invocation of combine in which the intermediate
video file or the intermediate audio file is absent, the operation raises an
unhandled exception and emits no user-facing event at all; it does not fail
gracefully. -/
theorem claim_C2_combine_missing_input (fs : List String)
    (h : DEFAULT_NAME ∉ fs ∨ DEFAULT_AUDIO_NAME ∉ fs) :
    (∃ e, (combine fs).2 = Except.error e) ∧ (combine fs).1 = [] := by
  unfold combine
  by_cases h1 : DEFAULT_NAME ∈ fs
  · have h2 : DEFAULT_AUDIO_NAME ∉ fs := h.resolve_left (fun hc => hc h1)
    rw [if_neg (by simpa using h1), if_pos h2]
    exact ⟨⟨_, rfl⟩, rfl⟩
  · rw [if_pos h1]
    exact ⟨⟨_, rfl⟩, rfl⟩

theorem claim_C2_combine_missing_input_witness :
    (∃ e, (combine ([] : List String)).2 = Except.error e) ∧
    (combine ([] : List String)).1 = [] :=
  claim_C2_combine_missing_input [] (Or.inl (by decide))

/-- C10: a call of download_video_locally whose title is None or the empty
string returns immediately: no file is opened, no download control is
rendered, no event is emitted, the file system is unchanged and nothing is
raised. -/
theorem claim_C10_download_locally_noop (fs : List String)
    (file_name mime : String) (title : Option String)
    (h : title = none ∨ title = some "") :
    download_video_locally fs title file_name mime = ([], fs, .ok ()) := by
  rcases h with h | h <;> subst h <;> rfl

theorem claim_C10_download_locally_noop_witness :
    download_video_locally ["video.mp4"] none "video.mp4" "video/mp4" =
      ([], ["video.mp4"], .ok ()) :=
  claim_C10_download_locally_noop ["video.mp4"] "video.mp4" "video/mp4" none
    (Or.inl rfl)

/-- C6: whenever preparing the verification token pair raises, get_yt_obj
emits a warning first, switches the stream client to ANDROID_VR and still
attempts resolution; it terminates with a user-facing error (followed by
st.stop) exactly when constructing the YouTube handle itself fails. -/
theorem claim_C6_get_yt_obj_degraded (env : YtEnv) (e : String)
    (h : env.tokenPrep = .error e) :
    (get_yt_obj env).1.head? =
      some (.warn ("Failed to auto-generate PoToken, continuing without it. Details: " ++ e)) ∧
    Event.resolveAttempt "ANDROID_VR" ∈ (get_yt_obj env).1 ∧
    ((get_yt_obj env).2 = .stopped ↔ ∃ msg, env.construct "ANDROID_VR" = .error msg) ∧
    ((∃ m, Event.errorMsg m ∈ (get_yt_obj env).1) ↔
      ∃ msg, env.construct "ANDROID_VR" = .error msg) := by
  unfold get_yt_obj
  rw [h]
  cases hc : env.construct "ANDROID_VR" with
  | ok yt => simp
  | error e2 => simp

theorem claim_C6_get_yt_obj_degraded_witness :
    (get_yt_obj ⟨.error "network unreachable",
        fun _ => .ok ⟨"T", "2024-01-01", 10, 5, [], none, none⟩⟩).1.head? =
      some (.warn ("Failed to auto-generate PoToken, continuing without it. Details: " ++
        "network unreachable")) ∧
    Event.resolveAttempt "ANDROID_VR" ∈
      (get_yt_obj ⟨.error "network unreachable",
        fun _ => .ok ⟨"T", "2024-01-01", 10, 5, [], none, none⟩⟩).1 ∧
    ((get_yt_obj ⟨.error "network unreachable",
        fun _ => .ok ⟨"T", "2024-01-01", 10, 5, [], none, none⟩⟩).2 = .stopped ↔
      ∃ msg, (fun (_ : String) =>
        (.ok ⟨"T", "2024-01-01", 10, 5, [], none, none⟩ :
          Except String YouTube)) "ANDROID_VR" = .error msg) ∧
    ((∃ m, Event.errorMsg m ∈
        (get_yt_obj ⟨.error "network unreachable",
          fun _ => .ok ⟨"T", "2024-01-01", 10, 5, [], none, none⟩⟩).1) ↔
      ∃ msg, (fun (_ : String) =>
        (.ok ⟨"T", "2024-01-01", 10, 5, [], none, none⟩ :
          Except String YouTube)) "ANDROID_VR" = .error msg) :=
  claim_C6_get_yt_obj_degraded
    ⟨.error "network unreachable",
      fun _ => .ok ⟨"T", "2024-01-01", 10, 5, [], none, none⟩⟩
    "network unreachable" rfl

theorem truthyOS_some_append_space (t r : String) :
    truthyOS (some (t ++ (" " ++ r))) = true := by
  simp only [truthyOS, Bool.not_eq_true', beq_eq_false_iff_ne, ne_eq]
  intro heq
  have hd := congrArg String.data heq
  simp [String.data_append] at hd

/-- C7: on a successful preparation with a selection made (the resolution in
video mode, the bit rate in audio-only mode), the file offered for download
is named Title, a space, the selection, a dot and the extension derived from
the intermediate file name, where the derivation falls back to the default
extension when the intermediate name has no suffix. -/
theorem claim_C7_download_name (fs : List String) (audio_only : Bool)
    (resolution bit_rate : Option String) (title file_name mime : String)
    (hsel : (if audio_only then truthyOS bit_rate else truthyOS resolution) = true)
    (hfile : file_name ∈ fs) :
    finalize_download fs audio_only resolution bit_rate
        (some (title, file_name, mime)) =
      ([.openFile file_name,
        .downloadButton
          ((title ++ (" " ++
              (if audio_only then bit_rate.getD "" else resolution.getD ""))) ++
            "." ++ deriveExt file_name) mime],
       fs, .ok ()) ∧
    (pathSuffix file_name = "" → deriveExt file_name = DEFAULT_EXT) := by
  constructor
  · cases audio_only with
    | false =>
      simp only [if_neg Bool.false_ne_true] at hsel
      simp [finalize_download, download_video_locally, hsel, hfile,
        truthyOS_some_append_space]
    | true =>
      simp only [if_pos trivial] at hsel
      simp [finalize_download, download_video_locally, hsel, hfile,
        truthyOS_some_append_space]
  · intro h
    simp [deriveExt, h]

theorem claim_C7_download_name_witness :
    finalize_download ["video.mp4"] false (some "720p") none
        (some ("Title", "video.mp4", MIME)) =
      ([.openFile "video.mp4",
        .downloadButton
          (("Title" ++ (" " ++
              (if false then (none : Option String).getD ""
               else (some "720p").getD ""))) ++
            "." ++ deriveExt "video.mp4") MIME],
       ["video.mp4"], .ok ()) ∧
    (pathSuffix "video.mp4" = "" → deriveExt "video.mp4" = DEFAULT_EXT) :=
  claim_C7_download_name ["video.mp4"] false (some "720p") none "Title"
    "video.mp4" MIME (by decide) (by decide)

theorem pyMaxBy_mem (f : YStream → Nat) :
    ∀ (l : List YStream) (b : YStream), pyMaxBy f b l = b ∨ pyMaxBy f b l ∈ l
  | [], _ => Or.inl rfl
  | x :: xs, b => by
    simp only [pyMaxBy]
    rcases pyMaxBy_mem f xs (if f b < f x then x else b) with h | h
    · rw [h]
      split
      · exact Or.inr (List.mem_cons_self x xs)
      · exact Or.inl rfl
    · exact Or.inr (List.mem_cons_of_mem x h)

theorem pyMaxBy_le (f : YStream → Nat) :
    ∀ (l : List YStream) (b : YStream),
      (∀ y ∈ l, f y ≤ f (pyMaxBy f b l)) ∧ f b ≤ f (pyMaxBy f b l)
  | [], b => ⟨fun y hy => absurd hy (List.not_mem_nil y), le_refl _⟩
  | x :: xs, b => by
    simp only [pyMaxBy]
    obtain ⟨h1, h2⟩ := pyMaxBy_le f xs (if f b < f x then x else b)
    have hb : f b ≤ f (if f b < f x then x else b) := by
      split
      · omega
      · exact le_refl _
    have hx : f x ≤ f (if f b < f x then x else b) := by
      split
      · exact le_refl _
      · omega
    refine ⟨fun y hy => ?_, le_trans hb h2⟩
    rcases List.mem_cons.mp hy with rfl | hy
    · exact le_trans hx h2
    · exact h1 y hy

theorem mem_progressiveCandidates_progressive {streams : List YStream} {s : YStream}
    (h : s ∈ progressiveCandidates streams) : s.progressive = true := by
  unfold progressiveCandidates at h
  split at h
  · exact (List.mem_filter.mp h).2
  · have h2 := (List.mem_filter.mp h).2
    simp only [Bool.and_eq_true, beq_iff_eq] at h2
    exact h2.1

theorem progressiveCandidates_eq_nil_iff (streams : List YStream) :
    progressiveCandidates streams = [] ↔
      streams.filter (fun s => s.progressive) = [] := by
  unfold progressiveCandidates
  split
  · exact Iff.rfl
  · rename_i hne
    constructor
    · intro h
      exact absurd h (by simpa [List.isEmpty_iff] using hne)
    · intro h
      exfalso
      have hne2 : streams.filter (fun s =>
          s.progressive && s.file_extension == DEFAULT_NAME_container) ≠ [] := by
        simpa [List.isEmpty_iff] using hne
      obtain ⟨s, hs⟩ := List.exists_mem_of_ne_nil _ hne2
      have hmem := List.mem_filter.mp hs
      have hpp : s.progressive = true := by
        have h3 := hmem.2
        simp only [Bool.and_eq_true, beq_iff_eq] at h3
        exact h3.1
      have : s ∈ streams.filter (fun s => s.progressive) :=
        List.mem_filter.mpr ⟨hmem.1, hpp⟩
      rw [h] at this
      exact absurd this (List.not_mem_nil s)

theorem progressiveCandidates_primary {streams : List YStream}
    (h : ∃ s ∈ streams, s.progressive = true ∧
      s.file_extension = DEFAULT_NAME_container) :
    progressiveCandidates streams =
      streams.filter (fun s =>
        s.progressive && s.file_extension == DEFAULT_NAME_container) := by
  unfold progressiveCandidates
  obtain ⟨s, hs, hp, he⟩ := h
  have : s ∈ streams.filter (fun s =>
      s.progressive && s.file_extension == DEFAULT_NAME_container) :=
    List.mem_filter.mpr ⟨hs, by simp [hp, he]⟩
  split
  · rename_i hemp
    rw [List.isEmpty_iff] at hemp
    rw [hemp] at this
    exact absurd this (List.not_mem_nil s)
  · rfl

/-- C9: _select_progressive_stream returns None exactly when the source has
no progressive streams; otherwise it returns a progressive stream that
maximises _resolution_score (zero when the resolution is missing, empty or
does not end in p) among the candidate set, preferring streams whose file
extension matches the default container whenever any such stream exists. -/
theorem claim_C9_select_progressive (streams : List YStream) :
    (_select_progressive_stream streams = none ↔
      streams.filter (fun s => s.progressive) = []) ∧
    (∀ r, _select_progressive_stream streams = some r →
      r.progressive = true ∧
      r ∈ progressiveCandidates streams ∧
      (∀ s ∈ progressiveCandidates streams,
        _resolution_score s ≤ _resolution_score r) ∧
      ((∃ s ∈ streams, s.progressive = true ∧
          s.file_extension = DEFAULT_NAME_container) →
        r.file_extension = DEFAULT_NAME_container)) := by
  unfold _select_progressive_stream
  constructor
  · cases hc : progressiveCandidates streams with
    | nil =>
      simp only [true_iff]
      exact (progressiveCandidates_eq_nil_iff streams).mp hc
    | cons c cs =>
      simp only [reduceCtorEq, false_iff]
      intro h
      have := (progressiveCandidates_eq_nil_iff streams).mpr h
      rw [hc] at this
      exact absurd this (by simp)
  · intro r hr
    cases hc : progressiveCandidates streams with
    | nil => rw [hc] at hr; exact absurd hr (by simp)
    | cons c cs =>
      rw [hc] at hr
      have hr2 : r = pyMaxBy _resolution_score c cs := by
        simpa using hr.symm
      have hmem : r ∈ c :: cs := by
        rw [hr2]
        rcases pyMaxBy_mem _resolution_score cs c with h | h
        · rw [h]; exact List.mem_cons_self c cs
        · exact List.mem_cons_of_mem c h
      have hmemP : r ∈ progressiveCandidates streams := by
        rw [hc]; exact hmem
      refine ⟨mem_progressiveCandidates_progressive hmemP, hmem, ?_, ?_⟩
      · intro s hs
        obtain ⟨h1, h2⟩ := pyMaxBy_le _resolution_score cs c
        rcases List.mem_cons.mp hs with rfl | hs
        · exact hr2 ▸ h2
        · exact hr2 ▸ h1 s hs
      · intro hex
        have hprim := progressiveCandidates_primary hex
        rw [hc] at hprim
        have hrf : r ∈ streams.filter (fun s =>
            s.progressive && s.file_extension == DEFAULT_NAME_container) := by
          rw [← hprim]; exact hmem
        have h2 := (List.mem_filter.mp hrf).2
        simp only [Bool.and_eq_true, beq_iff_eq] at h2
        exact h2.2


theorem claim_C9_select_progressive_witness :
    (_select_progressive_stream [c9sA, c9sB] = none ↔
      [c9sA, c9sB].filter (fun s => s.progressive) = []) ∧
    (c9sB.progressive = true ∧
     c9sB ∈ progressiveCandidates [c9sA, c9sB] ∧
     (∀ s ∈ progressiveCandidates [c9sA, c9sB],
       _resolution_score s ≤ _resolution_score c9sB) ∧
     ((∃ s ∈ [c9sA, c9sB], s.progressive = true ∧
         s.file_extension = DEFAULT_NAME_container) →
       c9sB.file_extension = DEFAULT_NAME_container)) :=
  ⟨(claim_C9_select_progressive [c9sA, c9sB]).1,
   (claim_C9_select_progressive [c9sA, c9sB]).2 c9sB (by decide)⟩

theorem erase_audio_source (fs : List String) :
    (AUDIO_SOURCE_NAME :: fs).erase AUDIO_SOURCE_NAME = fs :=
  List.erase_cons_head AUDIO_SOURCE_NAME fs

theorem erase_audio_source2 (fs : List String) :
    (DEFAULT_AUDIO_NAME :: AUDIO_SOURCE_NAME :: fs).erase AUDIO_SOURCE_NAME =
      DEFAULT_AUDIO_NAME :: fs := by
  rw [List.erase_cons]
  rw [if_neg (by decide)]
  rw [List.erase_cons_head]

/-- Case analysis of _download_audio_via_progressive: no progressive stream
(reported, False), rejected download (uncaught exception), extraction failure
(reported, False) or success (True with the audio file written). -/
theorem via_progressive_cases (yt : YouTube) (fs : List String)
    (hasAudio : String → Bool) :
    (_select_progressive_stream yt.streams = none ∧
      _download_audio_via_progressive yt fs hasAudio =
        ([.fallback, .errorMsg "No progressive stream available for audio extraction."],
         fs, .ok false)) ∨
    (∃ s, _select_progressive_stream yt.streams = some s ∧ s.sabrRejects = true ∧
      _download_audio_via_progressive yt fs hasAudio =
        ([.fallback,
          .info "Extracting audio from a progressive stream. Provide PoToken for direct audio downloads."],
         fs, .error "SABRError")) ∨
    (∃ s, _select_progressive_stream yt.streams = some s ∧ s.sabrRejects = false ∧
      hasAudio AUDIO_SOURCE_NAME = false ∧
      _download_audio_via_progressive yt fs hasAudio =
        ([.fallback,
          .info "Extracting audio from a progressive stream. Provide PoToken for direct audio downloads.",
          .download s.sid AUDIO_SOURCE_NAME,
          .errorMsg "Unable to extract audio track from the video stream."],
         fs, .ok false)) ∨
    (∃ s, _select_progressive_stream yt.streams = some s ∧ s.sabrRejects = false ∧
      hasAudio AUDIO_SOURCE_NAME = true ∧
      _download_audio_via_progressive yt fs hasAudio =
        ([.fallback,
          .info "Extracting audio from a progressive stream. Provide PoToken for direct audio downloads.",
          .download s.sid AUDIO_SOURCE_NAME],
         DEFAULT_AUDIO_NAME :: fs, .ok true)) := by
  cases hsel : _select_progressive_stream yt.streams with
  | none =>
    refine Or.inl ⟨rfl, ?_⟩
    simp [_download_audio_via_progressive, hsel]
  | some s =>
    by_cases hrej : s.sabrRejects = true
    · refine Or.inr (Or.inl ⟨s, rfl, hrej, ?_⟩)
      simp [_download_audio_via_progressive, hsel, hrej]
    · rw [Bool.not_eq_true] at hrej
      by_cases hha : hasAudio AUDIO_SOURCE_NAME = true
      · refine Or.inr (Or.inr (Or.inr ⟨s, rfl, hrej, hha, ?_⟩))
        simp [_download_audio_via_progressive, hsel, hrej,
          _extract_audio_from_video, hha, erase_audio_source2]
      · rw [Bool.not_eq_true] at hha
        refine Or.inr (Or.inr (Or.inl ⟨s, rfl, hrej, hha, ?_⟩))
        simp [_download_audio_via_progressive, hsel, hrej,
          _extract_audio_from_video, hha, erase_audio_source]

theorem via_fallback_once (yt : YouTube) (fs : List String)
    (hasAudio : String → Bool) :
    (_download_audio_via_progressive yt fs hasAudio).1.count Event.fallback = 1 := by
  rcases via_progressive_cases yt fs hasAudio with
    ⟨_, h⟩ | ⟨s, _, _, h⟩ | ⟨s, _, _, _, h⟩ | ⟨s, _, _, _, h⟩ <;>
    rw [h] <;> simp [List.count_cons]

/-- C3: with a non-empty bit rate requested, no po_token set, and either no
matching audio stream or a remote rejection of the matching stream,
_download_audio_stream hands over to the progressive-extraction fallback,
which runs exactly once, and the overall outcome is the fallback outcome. -/
theorem claim_C3_audio_fallback_once (yt : YouTube) (br : String)
    (fs : List String) (hasAudio : String → Bool)
    (hbr : br ≠ "")
    (hpo : truthyOS yt.po_token = false)
    (hfail : (audioMatches yt (some br)).head? = none ∨
      ∃ s, (audioMatches yt (some br)).head? = some s ∧ s.sabrRejects = true) :
    _download_audio_stream yt (some br) fs hasAudio =
      _download_audio_via_progressive yt fs hasAudio ∧
    (_download_audio_via_progressive yt fs hasAudio).1.count Event.fallback = 1 := by
  have htr : truthyOS (some br) = true := by simp [truthyOS, hbr]
  refine ⟨?_, via_fallback_once yt fs hasAudio⟩
  unfold _download_audio_stream
  rcases hfail with hm | ⟨s, hm, hrej⟩
  · rw [hm]
    simp [htr, hpo]
  · rw [hm]
    simp [htr, hpo, hrej]


theorem claim_C3_audio_fallback_once_witness :
    _download_audio_stream c3yt (some "128kbps") [] (fun _ => true) =
      _download_audio_via_progressive c3yt [] (fun _ => true) ∧
    (_download_audio_via_progressive c3yt [] (fun _ => true)).1.count
        Event.fallback = 1 :=
  claim_C3_audio_fallback_once c3yt "128kbps" [] (fun _ => true)
    (by decide) rfl (Or.inl rfl)

/-- C4: with no bit rate selected (no adaptive audio), _download_audio_stream
is exactly the progressive-extraction fallback: assuming the chosen
progressive stream is not rejected by the remote service, it reports failure
(False) precisely when no progressive stream exists or the audio extraction
fails, succeeds (True) precisely when a progressive stream exists and its
audio track extracts, and in the latter cases downloads that progressive
stream. -/
theorem claim_C4_audio_only_fallback (yt : YouTube) (bit_rate : Option String)
    (fs : List String) (hasAudio : String → Bool)
    (hbr : truthyOS bit_rate = false)
    (hnr : ∀ s, _select_progressive_stream yt.streams = some s →
      s.sabrRejects = false) :
    _download_audio_stream yt bit_rate fs hasAudio =
      _download_audio_via_progressive yt fs hasAudio ∧
    ((_download_audio_stream yt bit_rate fs hasAudio).2.2 = .ok false ↔
      (_select_progressive_stream yt.streams = none ∨
        hasAudio AUDIO_SOURCE_NAME = false)) ∧
    ((_download_audio_stream yt bit_rate fs hasAudio).2.2 = .ok true ↔
      (∃ s, _select_progressive_stream yt.streams = some s ∧
        hasAudio AUDIO_SOURCE_NAME = true)) ∧
    (∀ s, _select_progressive_stream yt.streams = some s →
      Event.download s.sid AUDIO_SOURCE_NAME ∈
        (_download_audio_stream yt bit_rate fs hasAudio).1) := by
  have heq : _download_audio_stream yt bit_rate fs hasAudio =
      _download_audio_via_progressive yt fs hasAudio := by
    unfold _download_audio_stream
    simp [hbr]
  refine ⟨heq, ?_, ?_, ?_⟩ <;> rw [heq] <;>
    rcases via_progressive_cases yt fs hasAudio with
      ⟨hsel, h⟩ | ⟨s, hsel, hrej, h⟩ | ⟨s, hsel, hrej, hha, h⟩ |
      ⟨s, hsel, hrej, hha, h⟩
  · rw [h]
    simp [hsel]
  · exact absurd (hnr s hsel) (by simp [hrej])
  · rw [h]
    simp [hsel, hha]
  · rw [h]
    simp [hsel, hha]
  · rw [h]
    simp [hsel]
  · exact absurd (hnr s hsel) (by simp [hrej])
  · rw [h]
    simp [hsel, hha]
  · rw [h]
    simp [hsel, hha]
  · rw [h]
    intro t ht
    rw [hsel] at ht
    cases ht
  · exact absurd (hnr s hsel) (by simp [hrej])
  · rw [h]
    intro t ht
    rw [hsel] at ht
    cases ht
    simp
  · rw [h]
    intro t ht
    rw [hsel] at ht
    cases ht
    simp


theorem claim_C4_audio_only_fallback_witness :
    _download_audio_stream c4yt none [] (fun _ => true) =
      _download_audio_via_progressive c4yt [] (fun _ => true) ∧
    ((_download_audio_stream c4yt none [] (fun _ => true)).2.2 = .ok false ↔
      (_select_progressive_stream c4yt.streams = none ∨
        (fun (_ : String) => true) AUDIO_SOURCE_NAME = false)) ∧
    ((_download_audio_stream c4yt none [] (fun _ => true)).2.2 = .ok true ↔
      (∃ s, _select_progressive_stream c4yt.streams = some s ∧
        (fun (_ : String) => true) AUDIO_SOURCE_NAME = true)) ∧
    (∀ s, _select_progressive_stream c4yt.streams = some s →
      Event.download s.sid AUDIO_SOURCE_NAME ∈
        (_download_audio_stream c4yt none [] (fun _ => true)).1) :=
  claim_C4_audio_only_fallback c4yt none [] (fun _ => true) rfl
    (fun _ hs => nomatch hs)

/-- Exhaustive shapes of a _download_audio_stream call: a plain hand-over to
the progressive fallback, one of the two reported failures, or a direct
adaptive download. -/
theorem audio_stream_cases (yt : YouTube) (bit_rate : Option String)
    (fs : List String) (hasAudio : String → Bool) :
    _download_audio_stream yt bit_rate fs hasAudio =
      _download_audio_via_progressive yt fs hasAudio ∨
    (∃ m, _download_audio_stream yt bit_rate fs hasAudio =
      ([.errorMsg m], fs, .ok false)) ∨
    (∃ m c, _download_audio_stream yt bit_rate fs hasAudio =
      ([.errorMsg m, .caption c], fs, .ok false)) ∨
    (∃ sid, _download_audio_stream yt bit_rate fs hasAudio =
      ([.download sid DEFAULT_AUDIO_NAME], DEFAULT_AUDIO_NAME :: fs, .ok true)) := by
  unfold _download_audio_stream
  by_cases hbr : truthyOS bit_rate = true
  · simp only [hbr, Bool.not_true, Bool.false_eq_true, if_false]
    cases hm : (audioMatches yt bit_rate).head? with
    | none =>
      by_cases hpo : truthyOS yt.po_token = true
      · simp [hpo]
      · rw [Bool.not_eq_true] at hpo
        simp [hpo]
    | some s =>
      by_cases hrej : s.sabrRejects = true
      · by_cases hpo : truthyOS yt.po_token = true
        · simp [hrej, hpo]
        · rw [Bool.not_eq_true] at hpo
          simp [hrej, hpo]
      · rw [Bool.not_eq_true] at hrej
        simp [hrej]
  · rw [Bool.not_eq_true] at hbr
    simp [hbr]

theorem audio_ok_true_fs (yt : YouTube) (bit_rate : Option String)
    (fs : List String) (hasAudio : String → Bool)
    (h : (_download_audio_stream yt bit_rate fs hasAudio).2.2 = .ok true) :
    (_download_audio_stream yt bit_rate fs hasAudio).2.1 =
      DEFAULT_AUDIO_NAME :: fs := by
  rcases audio_stream_cases yt bit_rate fs hasAudio with
    he | ⟨m, he⟩ | ⟨m, c, he⟩ | ⟨sid, he⟩
  · rw [he] at h ⊢
    rcases via_progressive_cases yt fs hasAudio with
      ⟨_, hv⟩ | ⟨s, _, _, hv⟩ | ⟨s, _, _, _, hv⟩ | ⟨s, _, _, _, hv⟩ <;>
      rw [hv] at h ⊢ <;> simp_all
  · rw [he] at h
    simp at h
  · rw [he] at h
    simp at h
  · rw [he]

theorem audio_no_mux (yt : YouTube) (bit_rate : Option String)
    (fs : List String) (hasAudio : String → Bool) :
    Event.mux ∉ (_download_audio_stream yt bit_rate fs hasAudio).1 := by
  rcases audio_stream_cases yt bit_rate fs hasAudio with
    he | ⟨m, he⟩ | ⟨m, c, he⟩ | ⟨sid, he⟩
  · rw [he]
    rcases via_progressive_cases yt fs hasAudio with
      ⟨_, hv⟩ | ⟨s, _, _, hv⟩ | ⟨s, _, _, _, hv⟩ | ⟨s, _, _, _, hv⟩ <;>
      rw [hv] <;> simp
  · rw [he]; simp
  · rw [he]; simp
  · rw [he]; simp

theorem audio_ok_true_download (yt : YouTube) (bit_rate : Option String)
    (fs : List String) (hasAudio : String → Bool)
    (h : (_download_audio_stream yt bit_rate fs hasAudio).2.2 = .ok true) :
    ∃ sid f, Event.download sid f ∈
      (_download_audio_stream yt bit_rate fs hasAudio).1 := by
  rcases audio_stream_cases yt bit_rate fs hasAudio with
    he | ⟨m, he⟩ | ⟨m, c, he⟩ | ⟨sid, he⟩
  · rw [he] at h ⊢
    rcases via_progressive_cases yt fs hasAudio with
      ⟨_, hv⟩ | ⟨s, _, _, hv⟩ | ⟨s, _, _, _, hv⟩ | ⟨s, _, _, _, hv⟩ <;>
      rw [hv] at h ⊢ <;> simp_all
  · rw [he] at h
    simp at h
  · rw [he] at h
    simp at h
  · rw [he]
    exact ⟨sid, DEFAULT_AUDIO_NAME, by simp⟩

theorem mux_not_mem_metaWrites (yt : YouTube) : Event.mux ∉ metaWrites yt := by
  simp [metaWrites]

/-- C5: in a submitted video-mode preparation whose resolution filter has a
first match vs (whose download the remote service accepts): with the
progressive flag true, exactly one stream download occurs and the muxer is
never invoked; with the progressive flag false and the audio step succeeding,
the video stream and an audio track are both downloaded before the muxer is
invoked, and the muxer is invoked exactly once. -/
theorem claim_C5_prepare_video (yt : YouTube) (resolution bit_rate : Option String)
    (progressive : Bool) (fs : List String) (hasAudio : String → Bool)
    (vs : YStream)
    (hvs : (videoMatches yt resolution progressive).head? = some vs)
    (hrej : vs.sabrRejects = false) :
    (progressive = true →
      prepare_yt_media yt resolution progressive bit_rate false true fs hasAudio =
        (metaWrites yt ++ [.download vs.sid DEFAULT_NAME,
          .success "Video Prepared Successfully."], DEFAULT_NAME :: fs,
         .ok (some (yt.title, DEFAULT_NAME, MIME))) ∧
      (prepare_yt_media yt resolution progressive bit_rate false true fs
          hasAudio).1.filter isDownload = [.download vs.sid DEFAULT_NAME] ∧
      Event.mux ∉
        (prepare_yt_media yt resolution progressive bit_rate false true fs
          hasAudio).1) ∧
    (progressive = false →
      (_download_audio_stream yt bit_rate (DEFAULT_NAME :: fs) hasAudio).2.2 =
        .ok true →
      ∃ evA,
        (_download_audio_stream yt bit_rate (DEFAULT_NAME :: fs) hasAudio).1 = evA ∧
        prepare_yt_media yt resolution progressive bit_rate false true fs hasAudio =
          ((metaWrites yt ++ [.download vs.sid DEFAULT_NAME] ++ evA) ++
            Event.mux :: [.success "Video Prepared Successfully."],
           DEFAULT_AUDIO_NAME :: DEFAULT_NAME :: fs,
           .ok (some (yt.title, DEFAULT_NAME, MIME))) ∧
        Event.mux ∉ metaWrites yt ++ [.download vs.sid DEFAULT_NAME] ++ evA ∧
        Event.download vs.sid DEFAULT_NAME ∈
          metaWrites yt ++ [.download vs.sid DEFAULT_NAME] ++ evA ∧
        (∃ sid f, Event.download sid f ∈ evA)) := by
  constructor
  · intro hp
    subst hp
    have heq : prepare_yt_media yt resolution true bit_rate false true fs hasAudio =
        (metaWrites yt ++ [.download vs.sid DEFAULT_NAME,
          .success "Video Prepared Successfully."], DEFAULT_NAME :: fs,
         .ok (some (yt.title, DEFAULT_NAME, MIME))) := by
      unfold prepare_yt_media
      rw [hvs]
      simp [hrej]
    refine ⟨heq, ?_, ?_⟩
    · rw [heq]
      simp [metaWrites, isDownload]
    · rw [heq]
      simp [metaWrites]
  · intro hp hok
    subst hp
    rcases hA : _download_audio_stream yt bit_rate (DEFAULT_NAME :: fs) hasAudio with
      ⟨evA, fsA, rA⟩
    rw [hA] at hok
    simp only at hok
    subst hok
    have hfsA : fsA = DEFAULT_AUDIO_NAME :: DEFAULT_NAME :: fs := by
      have h2 := audio_ok_true_fs yt bit_rate (DEFAULT_NAME :: fs) hasAudio
        (by rw [hA])
      rw [hA] at h2
      exact h2
    subst hfsA
    have hcomb : combine (DEFAULT_AUDIO_NAME :: DEFAULT_NAME :: fs) =
        ([.mux], .ok ()) := by
      unfold combine
      rw [if_neg (by simp), if_neg (by simp)]
    have hnm : Event.mux ∉ evA := by
      have h2 := audio_no_mux yt bit_rate (DEFAULT_NAME :: fs) hasAudio
      rw [hA] at h2
      exact h2
    have hdl : ∃ sid f, Event.download sid f ∈ evA := by
      have h2 := audio_ok_true_download yt bit_rate (DEFAULT_NAME :: fs) hasAudio
        (by rw [hA])
      rw [hA] at h2
      exact h2
    refine ⟨evA, rfl, ?_, ?_, ?_, hdl⟩
    · unfold prepare_yt_media
      rw [hvs]
      simp [hrej, hA, hcomb]
    · simp only [List.mem_append]
      rintro ((hm | hm) | hm)
      · exact mux_not_mem_metaWrites yt hm
      · simp at hm
      · exact hnm hm
    · simp


theorem claim_C5_prepare_video_witness :
    (prepare_yt_media c5yt1 (some "1080p") true none false true [] (fun _ => true) =
        (metaWrites c5yt1 ++ [.download c5vs.sid DEFAULT_NAME,
          .success "Video Prepared Successfully."], DEFAULT_NAME :: [],
         .ok (some (c5yt1.title, DEFAULT_NAME, MIME))) ∧
      (prepare_yt_media c5yt1 (some "1080p") true none false true []
          (fun _ => true)).1.filter isDownload = [.download c5vs.sid DEFAULT_NAME] ∧
      Event.mux ∉
        (prepare_yt_media c5yt1 (some "1080p") true none false true []
          (fun _ => true)).1) ∧
    (∃ evA,
      (_download_audio_stream c5yt2 (some "128kbps") (DEFAULT_NAME :: [])
        (fun _ => true)).1 = evA ∧
      prepare_yt_media c5yt2 (some "720p") false (some "128kbps") false true []
          (fun _ => true) =
        ((metaWrites c5yt2 ++ [.download c5vsB.sid DEFAULT_NAME] ++ evA) ++
          Event.mux :: [.success "Video Prepared Successfully."],
         DEFAULT_AUDIO_NAME :: DEFAULT_NAME :: [],
         .ok (some (c5yt2.title, DEFAULT_NAME, MIME))) ∧
      Event.mux ∉ metaWrites c5yt2 ++ [.download c5vsB.sid DEFAULT_NAME] ++ evA ∧
      Event.download c5vsB.sid DEFAULT_NAME ∈
        metaWrites c5yt2 ++ [.download c5vsB.sid DEFAULT_NAME] ++ evA ∧
      (∃ sid f, Event.download sid f ∈ evA)) :=
  ⟨(claim_C5_prepare_video c5yt1 (some "1080p") none true [] (fun _ => true)
      c5vs rfl rfl).1 rfl,
   (claim_C5_prepare_video c5yt2 (some "720p") (some "128kbps") false []
      (fun _ => true) c5vsB rfl rfl).2 rfl rfl⟩
